import Mathlib

/-!
Verification of the defund crowdfunding marketplace's funds-ledger subsystem.

This file is a shallow embedding of the server-side ledger code:
- the shared schema's entity records and insert-validation
  (`shared/schema.ts`: `users`, `startups`, `updates`, `transactions`,
  `insertTransactionSchema`),
- the in-memory storage layer (`server/storage.ts`: `MemStorage`), whose
  JavaScript `Map` objects are modelled as insertion-ordered association
  lists with `mapGet` / `mapSet` mirroring `Map.get` / `Map.set`,
- the HTTP route handlers of `server/routes.ts` (`POST /api/startups`,
  `POST /api/updates`, `POST /api/transactions`) and the route table
  registered by `registerRoutes`.

Modelling conventions: identifiers are `Nat` (the `MemStorage` maps are
keyed by JavaScript numbers); monetary amounts (`doublePrecision` columns)
are modelled as exact rationals `Rat` — IEEE-754 rounding drift is out of
scope, none of the properties below depends on it; timestamps (`new Date()`)
are `Nat` values supplied by the caller as a `now` argument; `async`
functions are pure state transformers returning `(result, newState)`.
-/

namespace DeFund

/-- Role enum of the `users` table: `["startup", "investor", "admin"]`. -/
inductive Role where
  | startup
  | investor
  | admin
deriving DecidableEq, Repr

/-- Payment-method enum of the `transactions` table: `["metamask", "upi"]`. -/
inductive TxMethod where
  | metamask
  | upi
deriving DecidableEq, Repr

/-- Status enum of the `transactions` table: `["pending", "completed", "failed"]`. -/
inductive TxStatus where
  | pending
  | completed
  | failed
deriving DecidableEq, Repr

/-- Visibility enum of the `updates` table: `["all-investors", "major-investors"]`. -/
inductive Visibility where
  | allInvestors
  | majorInvestors
deriving DecidableEq, Repr

/-- A row of the `users` table (shared/schema.ts). -/
structure User where
  id : Nat
  username : String
  email : String
  password : String
  role : Role
  walletAddress : Option String
  upiId : Option String
  createdAt : Nat
deriving DecidableEq, Repr

/-- A row of the `startups` table (shared/schema.ts). -/
structure Startup where
  id : Nat
  userId : Nat
  name : String
  description : String
  pitch : String
  stage : String
  fundingGoal : Rat
  fundsRaised : Rat
  imageUrl : Option String
  documentUrl : Option String
  upiId : Option String
  walletAddress : Option String
  endDate : Option Nat
  createdAt : Nat
deriving DecidableEq, Repr

/-- A row of the `documents` table (shared/schema.ts). -/
structure DocumentRec where
  id : Nat
  startupId : Nat
  name : String
  type : String
  path : String
  sizeInMb : Rat
  uploadedAt : Nat
deriving DecidableEq, Repr

/-- A row of the `updates` table (shared/schema.ts). -/
structure UpdateRec where
  id : Nat
  startupId : Nat
  title : String
  content : String
  visibility : Visibility
  createdAt : Nat
deriving DecidableEq, Repr

/-- A row of the `transactions` table (shared/schema.ts). -/
structure Transaction where
  id : Nat
  investorId : Nat
  startupId : Nat
  amount : Rat
  method : TxMethod
  status : TxStatus
  transactionReference : Option String
  createdAt : Nat
deriving DecidableEq, Repr

/-- Payload of `insertStartupSchema` with the server-assigned `userId`
(routes.ts mixes `userId: req.user.id` into the body before validation). -/
structure InsertStartup where
  userId : Nat
  name : String
  description : String
  pitch : String
  stage : String
  fundingGoal : Rat
  imageUrl : Option String
  documentUrl : Option String
  endDate : Option Nat
deriving DecidableEq, Repr

/-- Payload of `insertUpdateSchema` with the server-assigned `startupId`. -/
structure InsertUpdate where
  startupId : Nat
  title : String
  content : String
  visibility : Visibility
deriving DecidableEq, Repr

/-- Payload of `insertTransactionSchema` after validation: the parsed
`{investorId, startupId, amount, method, status, transactionReference}`.
Note the schema puts no lower bound on `amount` (`doublePrecision("amount")`
maps to a plain `z.number()`). -/
structure InsertTransaction where
  investorId : Nat
  startupId : Nat
  amount : Rat
  method : TxMethod
  status : TxStatus
  transactionReference : Option String
deriving DecidableEq, Repr

/-- JavaScript `x || null` applied to an optional string: `undefined`, `null`
and the empty string all coalesce to `null`. -/
def orNull (s : Option String) : Option String :=
  match s with
  | none => none
  | some t => if t = "" then none else some t

/-- `Map.get`: lookup by key in an insertion-ordered association list. -/
def mapGet {α : Type} (m : List (Nat × α)) (k : Nat) : Option α :=
  match m with
  | [] => none
  | (k', v) :: rest => if k' = k then some v else mapGet rest k

/-- `Map.set`: replace the value at an existing key in place, otherwise
append the new entry (JavaScript `Map` preserves insertion order and keeps
the original position of a re-set key). -/
def mapSet {α : Type} (m : List (Nat × α)) (k : Nat) (v : α) : List (Nat × α) :=
  match m with
  | [] => [(k, v)]
  | (k', v') :: rest => if k' = k then (k, v) :: rest else (k', v') :: mapSet rest k v

/-- `Array.from(m.values())`: the stored records in insertion order. -/
def mapValues {α : Type} (m : List (Nat × α)) : List α :=
  m.map Prod.snd

/-- The `MemStorage` class state (server/storage.ts): five `Map`s plus the
id counters.  The session store holds no ledger data and is omitted. -/
structure MemStorage where
  users : List (Nat × User)
  startups : List (Nat × Startup)
  documents : List (Nat × DocumentRec)
  updates : List (Nat × UpdateRec)
  transactions : List (Nat × Transaction)
  userIdCounter : Nat
  startupIdCounter : Nat
  documentIdCounter : Nat
  updateIdCounter : Nat
  transactionIdCounter : Nat
deriving DecidableEq, Repr

/-- The freshly constructed `MemStorage`: empty maps, all counters 1. -/
def MemStorage.empty : MemStorage :=
  { users := [], startups := [], documents := [], updates := [], transactions := []
    userIdCounter := 1, startupIdCounter := 1, documentIdCounter := 1
    updateIdCounter := 1, transactionIdCounter := 1 }

/-- `MemStorage.getStartup`. -/
def MemStorage.getStartup (st : MemStorage) (id : Nat) : Option Startup :=
  mapGet st.startups id

/-- `MemStorage.getStartupByUserId`: first startup (in insertion order)
whose `userId` matches. -/
def MemStorage.getStartupByUserId (st : MemStorage) (userId : Nat) : Option Startup :=
  (mapValues st.startups).find? (fun s => s.userId = userId)

/-- `MemStorage.createStartup`: assign the next id, initialise
`fundsRaised` to 0, `upiId` and `walletAddress` to null, store the row. -/
def MemStorage.createStartup (st : MemStorage) (ins : InsertStartup) (now : Nat) :
    Startup × MemStorage :=
  let id := st.startupIdCounter
  let s : Startup :=
    { id := id, userId := ins.userId, name := ins.name, description := ins.description
      pitch := ins.pitch, stage := ins.stage, fundingGoal := ins.fundingGoal
      fundsRaised := 0, imageUrl := orNull ins.imageUrl
      documentUrl := orNull ins.documentUrl, upiId := none, walletAddress := none
      endDate := ins.endDate, createdAt := now }
  (s, { st with startups := mapSet st.startups id s, startupIdCounter := id + 1 })

/-- `MemStorage.updateStartupFunds`: look the startup up; if absent return
`undefined` and change nothing; otherwise add `amount` to its `fundsRaised`
(all other fields copied by spread), store it back and return it. -/
def MemStorage.updateStartupFunds (st : MemStorage) (id : Nat) (amount : Rat) :
    Option Startup × MemStorage :=
  match mapGet st.startups id with
  | none => (none, st)
  | some s =>
      let s' := { s with fundsRaised := s.fundsRaised + amount }
      (some s', { st with startups := mapSet st.startups id s' })

/-- `MemStorage.createUpdate`: assign the next id and store the row. -/
def MemStorage.createUpdate (st : MemStorage) (ins : InsertUpdate) (now : Nat) :
    UpdateRec × MemStorage :=
  let id := st.updateIdCounter
  let u : UpdateRec :=
    { id := id, startupId := ins.startupId, title := ins.title
      content := ins.content, visibility := ins.visibility, createdAt := now }
  (u, { st with updates := mapSet st.updates id u, updateIdCounter := id + 1 })

/-- `MemStorage.createTransaction`: assign the next id, store the row, then
unconditionally call `updateStartupFunds(startupId, amount)` — the source
performs this second write for every status, and ignores its result — and
return the stored transaction. -/
def MemStorage.createTransaction (st : MemStorage) (ins : InsertTransaction) (now : Nat) :
    Transaction × MemStorage :=
  let id := st.transactionIdCounter
  let t : Transaction :=
    { id := id, investorId := ins.investorId, startupId := ins.startupId
      amount := ins.amount, method := ins.method, status := ins.status
      transactionReference := orNull ins.transactionReference, createdAt := now }
  let st1 := { st with transactions := mapSet st.transactions id t
                       transactionIdCounter := id + 1 }
  let st2 := (st1.updateStartupFunds ins.startupId ins.amount).2
  (t, st2)

/-- Descending insertion of an update into a list already sorted by
`createdAt` descending. -/
def insertByCreatedAtDesc (u : UpdateRec) : List UpdateRec → List UpdateRec
  | [] => [u]
  | v :: vs => if v.createdAt ≤ u.createdAt then u :: v :: vs else v :: insertByCreatedAtDesc u vs

/-- The `.sort((a, b) => b.createdAt - a.createdAt)` step, modelled as an
insertion sort by `createdAt` descending (the claims below only depend on
the result being a reordering). -/
def sortByCreatedAtDesc (l : List UpdateRec) : List UpdateRec :=
  l.foldr insertByCreatedAtDesc []

/-- `MemStorage.getUpdatesForInvestor`: collect the `startupId`s of all of
the investor's transactions (any status, any method), then return every
stored update whose `startupId` is among them, newest first.  The update's
`visibility` field is never consulted. -/
def MemStorage.getUpdatesForInvestor (st : MemStorage) (investorId : Nat) : List UpdateRec :=
  let investorTransactions :=
    (mapValues st.transactions).filter (fun t => decide (t.investorId = investorId))
  let startupIds := investorTransactions.map (fun t => t.startupId)
  sortByCreatedAtDesc
    ((mapValues st.updates).filter (fun u => startupIds.contains u.startupId))

/-- The enum check zod performs on the `method` column
(`text("method", ["metamask", "upi"])`). -/
def parseMethod (s : String) : Option TxMethod :=
  if s = "metamask" then some TxMethod.metamask
  else if s = "upi" then some TxMethod.upi
  else none

/-- The enum check zod performs on the `status` column
(`text("status", ["pending", "completed", "failed"])`). -/
def parseStatus (s : String) : Option TxStatus :=
  if s = "pending" then some TxStatus.pending
  else if s = "completed" then some TxStatus.completed
  else if s = "failed" then some TxStatus.failed
  else none

/-- The enum check zod performs on the `visibility` column. -/
def parseVisibility (s : String) : Option Visibility :=
  if s = "all-investors" then some Visibility.allInvestors
  else if s = "major-investors" then some Visibility.majorInvestors
  else none

/-- The enum check zod performs on the `stage` column. -/
def validStage (s : String) : Bool :=
  s = "pre-seed" || s = "seed" || s = "series-a" || s = "series-b" || s = "series-c"

/-- Request body of `POST /api/transactions` as the client sends it.  The
route handler spreads this body and then overwrites `investorId` with the
session user's id before validation, so the `investorId` field here is
never read by the handler. -/
structure TxBody where
  investorId : Option Nat
  startupId : Nat
  amount : Rat
  method : String
  status : String
  transactionReference : Option String
deriving DecidableEq, Repr

/-- Request body of `POST /api/startups` (before `userId` is mixed in). -/
structure StartupBody where
  name : String
  description : String
  pitch : String
  stage : String
  fundingGoal : Rat
  imageUrl : Option String
  documentUrl : Option String
  endDate : Option Nat
deriving DecidableEq, Repr

/-- Request body of `POST /api/updates` (before `startupId` is mixed in). -/
structure UpdateBody where
  title : String
  content : String
  visibility : String
deriving DecidableEq, Repr

/-- Outcome of `POST /api/transactions` (routes.ts lines 194-226). -/
inductive TxRouteResult where
  | unauthenticated
  | forbidden
  | invalidInput
  | startupNotFound
  | created (t : Transaction)
deriving DecidableEq, Repr

/-- Outcome of `POST /api/startups` (routes.ts lines 60-92). -/
inductive StartupRouteResult where
  | unauthenticated
  | forbidden
  | alreadyExists
  | invalidInput
  | created (s : Startup)
deriving DecidableEq, Repr

/-- Outcome of `POST /api/updates` (routes.ts lines 127-159). -/
inductive UpdateRouteResult where
  | unauthenticated
  | forbidden
  | startupNotFound
  | invalidInput
  | created (u : UpdateRec)
deriving DecidableEq, Repr

/-- Handler of `POST /api/transactions`: 401 when unauthenticated, 403 when
the session role is not `investor`, then `insertTransactionSchema.safeParse`
on the body with `investorId` overridden by the session user's id (only the
two enum columns can fail — `amount` is an unconstrained number), then a
404 when the referenced startup does not exist, and finally
`storage.createTransaction`. -/
def postTransactionsRoute (st : MemStorage) (user : Option User) (body : TxBody)
    (now : Nat) : TxRouteResult × MemStorage :=
  match user with
  | none => (TxRouteResult.unauthenticated, st)
  | some u =>
    if u.role ≠ Role.investor then (TxRouteResult.forbidden, st)
    else
      match parseMethod body.method, parseStatus body.status with
      | some m, some s =>
          let ins : InsertTransaction :=
            { investorId := u.id, startupId := body.startupId, amount := body.amount
              method := m, status := s
              transactionReference := body.transactionReference }
          match st.getStartup body.startupId with
          | none => (TxRouteResult.startupNotFound, st)
          | some _ =>
              let r := st.createTransaction ins now
              (TxRouteResult.created r.1, r.2)
      | _, _ => (TxRouteResult.invalidInput, st)

/-- Handler of `POST /api/startups`: 401 when unauthenticated, 403 when the
session role is not `startup`, 400 when `getStartupByUserId` finds an
existing profile for the user, then schema validation (the `stage` enum is
the residual check) and `storage.createStartup` with `userId` forced to the
session user's id. -/
def postStartupsRoute (st : MemStorage) (user : Option User) (body : StartupBody)
    (now : Nat) : StartupRouteResult × MemStorage :=
  match user with
  | none => (StartupRouteResult.unauthenticated, st)
  | some u =>
    if u.role ≠ Role.startup then (StartupRouteResult.forbidden, st)
    else
      match st.getStartupByUserId u.id with
      | some _ => (StartupRouteResult.alreadyExists, st)
      | none =>
          if validStage body.stage then
            let ins : InsertStartup :=
              { userId := u.id, name := body.name, description := body.description
                pitch := body.pitch, stage := body.stage
                fundingGoal := body.fundingGoal, imageUrl := body.imageUrl
                documentUrl := body.documentUrl, endDate := body.endDate }
            let r := st.createStartup ins now
            (StartupRouteResult.created r.1, r.2)
          else (StartupRouteResult.invalidInput, st)

/-- Handler of `POST /api/updates`: 401 when unauthenticated, 403 when the
session role is not `startup`, 404 when the user has no startup, then schema
validation (the `visibility` enum is the residual check) and
`storage.createUpdate` with `startupId` forced to the user's startup. -/
def postUpdatesRoute (st : MemStorage) (user : Option User) (body : UpdateBody)
    (now : Nat) : UpdateRouteResult × MemStorage :=
  match user with
  | none => (UpdateRouteResult.unauthenticated, st)
  | some u =>
    if u.role ≠ Role.startup then (UpdateRouteResult.forbidden, st)
    else
      match st.getStartupByUserId u.id with
      | none => (UpdateRouteResult.startupNotFound, st)
      | some s =>
          match parseVisibility body.visibility with
          | none => (UpdateRouteResult.invalidInput, st)
          | some vis =>
              let ins : InsertUpdate :=
                { startupId := s.id, title := body.title
                  content := body.content, visibility := vis }
              let r := st.createUpdate ins now
              (UpdateRouteResult.created r.1, r.2)

/-- HTTP methods used by the route table. -/
inductive HttpMethod where
  | get
  | post
  | patch
deriving DecidableEq, Repr

/-- One segment of an express route pattern: a literal or a `:param`. -/
inductive Seg where
  | lit (s : String)
  | param
deriving DecidableEq, Repr

/-- Does one pattern segment match one path segment. -/
def segMatch : Seg → String → Bool
  | Seg.lit s, t => s = t
  | Seg.param, _ => true

/-- Does a route pattern match a request path. -/
def patMatch : List Seg → List String → Bool
  | [], [] => true
  | p :: ps, t :: ts => segMatch p t && patMatch ps ts
  | _, _ => false

/-- The complete route table registered by `registerRoutes` in
server/routes.ts.  (`setupAuth` additionally registers the authentication
endpoints, which are not transaction routes.) -/
def routesTable : List (HttpMethod × List Seg) :=
  [ (HttpMethod.get,  [Seg.lit "api", Seg.lit "startups"])
  , (HttpMethod.get,  [Seg.lit "api", Seg.lit "startups", Seg.param])
  , (HttpMethod.post, [Seg.lit "api", Seg.lit "startups"])
  , (HttpMethod.get,  [Seg.lit "api", Seg.lit "startups", Seg.lit "user", Seg.lit "me"])
  , (HttpMethod.get,  [Seg.lit "api", Seg.lit "startups", Seg.param, Seg.lit "documents"])
  , (HttpMethod.post, [Seg.lit "api", Seg.lit "updates"])
  , (HttpMethod.get,  [Seg.lit "api", Seg.lit "updates", Seg.lit "startup", Seg.param])
  , (HttpMethod.get,  [Seg.lit "api", Seg.lit "updates", Seg.lit "investor", Seg.lit "me"])
  , (HttpMethod.post, [Seg.lit "api", Seg.lit "transactions"])
  , (HttpMethod.get,  [Seg.lit "api", Seg.lit "transactions", Seg.lit "investor", Seg.lit "me"])
  , (HttpMethod.get,  [Seg.lit "api", Seg.lit "transactions", Seg.lit "startup", Seg.lit "me"]) ]

/-- Is some registered route able to handle the given method and path?
express answers 404 and leaves all state untouched when this is false. -/
def routeHandled (m : HttpMethod) (path : List String) : Bool :=
  routesTable.any (fun r => decide (r.1 = m) && patMatch r.2 path)

/-- One server-side state transition of the route layer: the three POST
handlers of routes.ts are the only handlers that write to storage (every
GET handler only reads). -/
inductive RouteStep : MemStorage → MemStorage → Prop where
  | startupCreate (u : Option User) (b : StartupBody) (now : Nat) (st : MemStorage) :
      RouteStep st (postStartupsRoute st u b now).2
  | updateCreate (u : Option User) (b : UpdateBody) (now : Nat) (st : MemStorage) :
      RouteStep st (postUpdatesRoute st u b now).2
  | transactionCreate (u : Option User) (b : TxBody) (now : Nat) (st : MemStorage) :
      RouteStep st (postTransactionsRoute st u b now).2

/-- States reachable from a fresh server by route-level transitions. -/
inductive Reachable : MemStorage → Prop where
  | init : Reachable MemStorage.empty
  | step {st st' : MemStorage} : Reachable st → RouteStep st st' → Reachable st'

/-- The `fundsRaised` counter of the stored startup `i`, when present. -/
def fundsOf (st : MemStorage) (i : Nat) : Option Rat :=
  (mapGet st.startups i).map Startup.fundsRaised

/-- Sum of `amount` over all stored transactions referencing startup `i`,
regardless of status. -/
def txSumFor (st : MemStorage) (i : Nat) : Rat :=
  (((mapValues st.transactions).filter (fun t => decide (t.startupId = i))).map
    Transaction.amount).sum

/-- Sum of `amount` over the stored transactions referencing startup `i`
whose status is `completed`. -/
def completedSumFor (st : MemStorage) (i : Nat) : Rat :=
  (((mapValues st.transactions).filter
      (fun t => decide (t.startupId = i ∧ t.status = TxStatus.completed))).map
    Transaction.amount).sum

/-- Run a sequence of storage-level transaction creations. -/
def runCreates (st : MemStorage) (reqs : List (InsertTransaction × Nat)) : MemStorage :=
  reqs.foldl (fun s r => (s.createTransaction r.1 r.2).2) st

/-- Every transaction-map key is below the id counter (holds in every state
the storage itself produces; `createTransaction` then always stores under a
fresh key). -/
def txKeysBelow (st : MemStorage) : Prop :=
  ∀ p ∈ st.transactions, p.1 < st.transactionIdCounter

/-- Every startup-map key is below the id counter. -/
def startupKeysBelow (st : MemStorage) : Prop :=
  ∀ p ∈ st.startups, p.1 < st.startupIdCounter

/-- The userIds of the stored startups, with multiplicity. -/
def startupOwners (st : MemStorage) : List Nat :=
  (mapValues st.startups).map Startup.userId

/-- At most one stored startup per owning user. -/
def atMostOneStartupPerUser (st : MemStorage) : Prop :=
  ∀ uid : Nat, (startupOwners st).count uid ≤ 1

/-- The inductive invariant carried through the route-level step relation:
startup keys stay below the id counter and each user owns at most one
startup. -/
def routeInvariant (st : MemStorage) : Prop :=
  startupKeysBelow st ∧ atMostOneStartupPerUser st

instance (st : MemStorage) : Decidable (txKeysBelow st) := by
  unfold txKeysBelow; infer_instance

instance (st : MemStorage) : Decidable (startupKeysBelow st) := by
  unfold startupKeysBelow; infer_instance

/-- Did the transaction route accept and persist? -/
def TxRouteResult.isCreated : TxRouteResult → Bool
  | TxRouteResult.created _ => true
  | _ => false

/-- Fixture: a startup-role user (id 1). -/
def uFounder : User :=
  { id := 1, username := "founder", email := "f@x.io", password := "h"
    role := Role.startup, walletAddress := none, upiId := none, createdAt := 0 }

/-- Fixture: an investor-role user (id 2). -/
def uInvestor : User :=
  { id := 2, username := "inv", email := "i@x.io", password := "h"
    role := Role.investor, walletAddress := none, upiId := none, createdAt := 0 }

/-- Fixture: the startup record owned by user 1, with `fundsRaised` 500 (the
state after Scenario A of the specification). -/
def sAcme : Startup :=
  { id := 1, userId := 1, name := "Acme", description := "d", pitch := "p"
    stage := "seed", fundingGoal := 10000, fundsRaised := 500
    imageUrl := none, documentUrl := none, upiId := none, walletAddress := none
    endDate := none, createdAt := 0 }

/-- Fixture: storage holding users 1 and 2 and startup 1 at `fundsRaised`
500, with no transactions. -/
def stScenario : MemStorage :=
  { users := [(1, uFounder), (2, uInvestor)], startups := [(1, sAcme)]
    documents := [], updates := [], transactions := []
    userIdCounter := 3, startupIdCounter := 2, documentIdCounter := 1
    updateIdCounter := 1, transactionIdCounter := 1 }

/-- Fixture: the same storage with startup 1 at `fundsRaised` 0. -/
def stZero : MemStorage :=
  { stScenario with startups := [(1, { sAcme with fundsRaised := 0 })] }

/-- Fixture: the bank-transfer (UPI) insert of Scenario B — amount 300,
status `pending`, reference TXN123456, against startup 1. -/
def insPendingB : InsertTransaction :=
  { investorId := 2, startupId := 1, amount := 300, method := TxMethod.upi
    status := TxStatus.pending, transactionReference := some "TXN123456" }

/-- Fixture: a transaction-route body with a non-positive amount. -/
def bodyNegative : TxBody :=
  { investorId := none, startupId := 1, amount := -100, method := "metamask"
    status := "completed", transactionReference := some "0xabc" }

/-- Fixture: the wallet-transfer insert of Scenario A — amount 500, status
`completed`, against startup 1. -/
def insCompletedA : InsertTransaction :=
  { investorId := 2, startupId := 1, amount := 500, method := TxMethod.metamask
    status := TxStatus.completed, transactionReference := some "0xdead" }

/-- Fixture: an insert whose `startupId` matches no stored startup. -/
def insOrphan : InsertTransaction :=
  { investorId := 2, startupId := 99, amount := 50, method := TxMethod.metamask
    status := TxStatus.completed, transactionReference := none }

/-- Fixture: a well-formed transaction-route body that also carries a bogus
`investorId`, which the route must override. -/
def bodyTxW : TxBody :=
  { investorId := some 999, startupId := 1, amount := 500, method := "metamask"
    status := "completed", transactionReference := some "0xbeef" }

/-- Fixture: the transaction the route persists for `bodyTxW` sent by user 2
against `stScenario` at time 3. -/
def txW : Transaction :=
  { id := 1, investorId := 2, startupId := 1, amount := 500
    method := TxMethod.metamask, status := TxStatus.completed
    transactionReference := some "0xbeef", createdAt := 3 }

/-- Fixture: a well-formed startup-route body. -/
def bodyStartupW : StartupBody :=
  { name := "Beta", description := "d", pitch := "p", stage := "seed"
    fundingGoal := 5000, imageUrl := none, documentUrl := none, endDate := none }

/-
Theorems.
-/

/-- C1: the claim states that `createTransaction` with status `pending`
leaves the startup's `fundsRaised` unchanged, the funds aggregator being
invoked iff the resulting status is `completed`.  The code diverges:
`MemStorage.createTransaction` (and likewise `MongoDBStorage`'s version)
calls `updateStartupFunds` unconditionally, so creating the Scenario-B
pending bank-transfer of amount 300 against a startup at 500 moves
`fundsRaised` to 800 even though the stored status is `pending`. -/
theorem c1_pending_creation_increments_funds :
    fundsOf (stScenario.createTransaction insPendingB 10).2 1 = some 800 ∧
    (stScenario.createTransaction insPendingB 10).1.status = TxStatus.pending := by
  refine ⟨?_, rfl⟩
  simp only [stScenario, sAcme, insPendingB, MemStorage.createTransaction,
    MemStorage.updateStartupFunds, mapGet, mapSet, fundsOf, orNull]
  norm_num

/-- C2 counterexample: after the single pending creation of amount 300
against a startup that started at `fundsRaised = 0`, the stored counter is
300 while the sum over `completed` transactions is 0, so the claimed
invariant fails at this concrete reachable state. -/
theorem c2_pending_breaks_completed_sum :
    fundsOf (stZero.createTransaction insPendingB 10).2 1 = some 300 ∧
    completedSumFor (stZero.createTransaction insPendingB 10).2 1 = 0 ∧
    fundsOf (stZero.createTransaction insPendingB 10).2 1 ≠
      some (completedSumFor (stZero.createTransaction insPendingB 10).2 1) := by
  refine ⟨?_, ?_, ?_⟩ <;>
    simp only [stZero, stScenario, sAcme, insPendingB, MemStorage.createTransaction,
      MemStorage.updateStartupFunds, mapGet, mapSet, mapValues, fundsOf,
      completedSumFor, orNull, List.filter, List.map, List.sum] <;>
    norm_num

/-- C3: the claim states that a transaction-creation request with
`amount ≤ 0` fails validation, persists nothing and changes no funds.  The
code diverges: `insertTransactionSchema` puts no lower bound on `amount`,
so an authenticated investor's request with amount -100 is accepted (201),
the row is persisted, and the startup's `fundsRaised` drops from 500 to
400. -/
theorem c3_nonpositive_amount_accepted :
    (postTransactionsRoute stScenario (some uInvestor) bodyNegative 10).1.isCreated = true ∧
    fundsOf (postTransactionsRoute stScenario (some uInvestor) bodyNegative 10).2 1 =
      some 400 ∧
    (mapValues (postTransactionsRoute stScenario (some uInvestor) bodyNegative 10).2.transactions).length = 1 := by
  refine ⟨rfl, ?_, rfl⟩
  simp only [stScenario, sAcme, uInvestor, bodyNegative, postTransactionsRoute,
    parseMethod, parseStatus, MemStorage.getStartup, MemStorage.createTransaction,
    MemStorage.updateStartupFunds, mapGet, mapSet, fundsOf, orNull]
  norm_num

/-- C4: the claim requires duplicate approval of a pending transaction to
increment `fundsRaised` exactly once.  The code diverges: the client's
approval mutation sends `PATCH /api/transactions/:id/verify`, but
`registerRoutes` registers no such route — for every id segment the request
matches nothing in the route table, so express answers 404, no status
transition exists server-side, and an approval increments `fundsRaised`
zero times (the counter was instead already incremented when the pending
row was created). -/
theorem c4_verify_route_unregistered :
    ∀ seg : String,
      routeHandled HttpMethod.patch ["api", "transactions", seg, "verify"] = false := by
  intro seg
  rfl

theorem mapGet_mapSet_self {α : Type} (m : List (Nat × α)) (k : Nat) (v : α) :
    mapGet (mapSet m k v) k = some v := by
  induction m with
  | nil => simp [mapSet, mapGet]
  | cons p rest ih =>
      by_cases h : p.1 = k
      · simp [mapSet, mapGet, h]
      · simp [mapSet, mapGet, h, ih]

theorem mapGet_mapSet_ne {α : Type} (m : List (Nat × α)) (k j : Nat) (v : α)
    (h : j ≠ k) : mapGet (mapSet m k v) j = mapGet m j := by
  induction m with
  | nil => simp [mapSet, mapGet, Ne.symm h]
  | cons q rest ih =>
      obtain ⟨a, b⟩ := q
      by_cases hk : a = k
      · subst hk
        simp [mapSet, mapGet, Ne.symm h]
      · simp only [mapSet, if_neg hk, mapGet]
        by_cases hj : a = j
        · simp [hj]
        · simp [hj, ih]

theorem mem_mapSet {α : Type} {m : List (Nat × α)} {k : Nat} {v : α}
    {p : Nat × α} (h : p ∈ mapSet m k v) : p = (k, v) ∨ p ∈ m := by
  induction m with
  | nil => simpa [mapSet] using h
  | cons q rest ih =>
      by_cases hk : q.1 = k
      · rcases (by simpa [mapSet, hk] using h) with h' | h'
        · exact Or.inl h'
        · exact Or.inr (List.mem_cons_of_mem _ h')
      · rcases (by simpa [mapSet, hk] using h) with h' | h'
        · exact Or.inr (by simp [h'])
        · rcases ih h' with h'' | h''
          · exact Or.inl h''
          · exact Or.inr (List.mem_cons_of_mem _ h'')

theorem mapSet_eq_append {α : Type} (m : List (Nat × α)) (k : Nat) (v : α)
    (h : ∀ p ∈ m, p.1 ≠ k) : mapSet m k v = m ++ [(k, v)] := by
  induction m with
  | nil => simp [mapSet]
  | cons q rest ih =>
      have hq : q.1 ≠ k := h q (by simp)
      simp only [mapSet, hq, if_false]
      rw [ih (fun p hp => h p (List.mem_cons_of_mem _ hp))]
      simp

theorem self_mem_values_mapSet {α : Type} (m : List (Nat × α)) (k : Nat) (v : α) :
    v ∈ mapValues (mapSet m k v) := by
  induction m with
  | nil => simp [mapSet, mapValues]
  | cons q rest ih =>
      by_cases hk : q.1 = k
      · simp [mapSet, mapValues, hk]
      · simpa [mapSet, mapValues, hk] using Or.inr (by simpa [mapValues] using ih)

theorem mem_values_mapSet {α : Type} {m : List (Nat × α)} {k : Nat} {v w : α}
    (h : w ∈ mapValues (mapSet m k v)) : w ∈ mapValues m ∨ w = v := by
  rcases List.mem_map.mp h with ⟨p, hp, hw⟩
  rcases mem_mapSet hp with h' | h'
  · subst h'
    exact Or.inr hw.symm
  · exact Or.inl (hw ▸ List.mem_map_of_mem Prod.snd h')

theorem mapGet_mem {α : Type} {m : List (Nat × α)} {k : Nat} {v : α}
    (h : mapGet m k = some v) : (k, v) ∈ m := by
  induction m with
  | nil => simp [mapGet] at h
  | cons q rest ih =>
      obtain ⟨a, b⟩ := q
      by_cases hk : a = k
      · subst hk
        have hb : b = v := by simpa [mapGet] using h
        subst hb
        exact List.mem_cons_self _ _
      · exact List.mem_cons_of_mem _ (ih (by simpa [mapGet, hk] using h))

/-- C5: for every stored startup `i` and every amount `a`,
`updateStartupFunds(i, a)` returns the startup with `fundsRaised` replaced
by its previous value plus `a` (all other fields copied unchanged by the
spread), stores exactly that record back under `i`, and leaves every other
startup, every other entity map and every id counter untouched. -/
theorem c5_updateStartupFunds_adds_amount (st : MemStorage) (i : Nat) (s : Startup)
    (a : Rat) (hget : mapGet st.startups i = some s) :
    (st.updateStartupFunds i a).1 = some { s with fundsRaised := s.fundsRaised + a } ∧
    mapGet (st.updateStartupFunds i a).2.startups i =
      some { s with fundsRaised := s.fundsRaised + a } ∧
    (∀ j, j ≠ i → mapGet (st.updateStartupFunds i a).2.startups j = mapGet st.startups j) ∧
    (st.updateStartupFunds i a).2.users = st.users ∧
    (st.updateStartupFunds i a).2.documents = st.documents ∧
    (st.updateStartupFunds i a).2.updates = st.updates ∧
    (st.updateStartupFunds i a).2.transactions = st.transactions ∧
    (st.updateStartupFunds i a).2.userIdCounter = st.userIdCounter ∧
    (st.updateStartupFunds i a).2.startupIdCounter = st.startupIdCounter ∧
    (st.updateStartupFunds i a).2.documentIdCounter = st.documentIdCounter ∧
    (st.updateStartupFunds i a).2.updateIdCounter = st.updateIdCounter ∧
    (st.updateStartupFunds i a).2.transactionIdCounter = st.transactionIdCounter := by
  unfold MemStorage.updateStartupFunds
  rw [hget]
  refine ⟨rfl, mapGet_mapSet_self _ _ _, ?_, rfl, rfl, rfl, rfl, rfl, rfl, rfl, rfl, rfl⟩
  intro j hj
  exact mapGet_mapSet_ne _ _ _ _ hj

/-- Witness for C5 at a concrete stored startup: startup 1 of `stScenario`
holds 500, and adding 250 yields the record at 750 with full frame. -/
theorem c5_updateStartupFunds_adds_amount_witness :
    (stScenario.updateStartupFunds 1 250).1 =
      some { sAcme with fundsRaised := sAcme.fundsRaised + 250 } ∧
    mapGet (stScenario.updateStartupFunds 1 250).2.startups 1 =
      some { sAcme with fundsRaised := sAcme.fundsRaised + 250 } ∧
    (∀ j, j ≠ 1 → mapGet (stScenario.updateStartupFunds 1 250).2.startups j =
      mapGet stScenario.startups j) ∧
    (stScenario.updateStartupFunds 1 250).2.users = stScenario.users ∧
    (stScenario.updateStartupFunds 1 250).2.documents = stScenario.documents ∧
    (stScenario.updateStartupFunds 1 250).2.updates = stScenario.updates ∧
    (stScenario.updateStartupFunds 1 250).2.transactions = stScenario.transactions ∧
    (stScenario.updateStartupFunds 1 250).2.userIdCounter = stScenario.userIdCounter ∧
    (stScenario.updateStartupFunds 1 250).2.startupIdCounter = stScenario.startupIdCounter ∧
    (stScenario.updateStartupFunds 1 250).2.documentIdCounter = stScenario.documentIdCounter ∧
    (stScenario.updateStartupFunds 1 250).2.updateIdCounter = stScenario.updateIdCounter ∧
    (stScenario.updateStartupFunds 1 250).2.transactionIdCounter =
      stScenario.transactionIdCounter :=
  c5_updateStartupFunds_adds_amount stScenario 1 sAcme 250 rfl

/-- C6: a transaction-creation request by any authenticated user whose role
is not `investor` is answered 403 and the storage state is returned exactly
as it was: no transaction row is created and no startup's `fundsRaised`
changes. -/
theorem c6_non_investor_rejected (st : MemStorage) (u : User) (b : TxBody) (now : Nat)
    (h : u.role ≠ Role.investor) :
    postTransactionsRoute st (some u) b now = (TxRouteResult.forbidden, st) := by
  simp [postTransactionsRoute, h]

/-- Witness for C6: the startup-role user 1 sending a well-formed body is
rejected with the state unchanged. -/
theorem c6_non_investor_rejected_witness :
    postTransactionsRoute stScenario (some uFounder) bodyTxW 3 =
      (TxRouteResult.forbidden, stScenario) :=
  c6_non_investor_rejected stScenario uFounder bodyTxW 3 (by decide)

/-- C9: when the insert's `startupId` matches no stored startup,
`createTransaction` still persists the row and returns it (the function is
total — no error path exists in the source), the startups map is unchanged,
and `updateStartupFunds` silently answers `undefined` for that id. -/
theorem c9_orphan_transaction_persisted (st : MemStorage) (ins : InsertTransaction)
    (now : Nat) (h : mapGet st.startups ins.startupId = none) :
    (st.createTransaction ins now).2.startups = st.startups ∧
    (st.createTransaction ins now).1 ∈
      mapValues (st.createTransaction ins now).2.transactions ∧
    (st.updateStartupFunds ins.startupId ins.amount).1 = none ∧
    (st.createTransaction ins now).1.startupId = ins.startupId ∧
    (st.createTransaction ins now).1.amount = ins.amount := by
  refine ⟨?_, ?_, ?_, rfl, rfl⟩
  · simp [MemStorage.createTransaction, MemStorage.updateStartupFunds, h]
  · simp only [MemStorage.createTransaction, MemStorage.updateStartupFunds, h]
    exact self_mem_values_mapSet _ _ _
  · simp [MemStorage.updateStartupFunds, h]

/-- Witness for C9: an insert against missing startup 99 on `stScenario`. -/
theorem c9_orphan_transaction_persisted_witness :
    (stScenario.createTransaction insOrphan 7).2.startups = stScenario.startups ∧
    (stScenario.createTransaction insOrphan 7).1 ∈
      mapValues (stScenario.createTransaction insOrphan 7).2.transactions ∧
    (stScenario.updateStartupFunds insOrphan.startupId insOrphan.amount).1 = none ∧
    (stScenario.createTransaction insOrphan 7).1.startupId = insOrphan.startupId ∧
    (stScenario.createTransaction insOrphan 7).1.amount = insOrphan.amount :=
  c9_orphan_transaction_persisted stScenario insOrphan 7 rfl

theorem mem_insertByCreatedAtDesc {x u : UpdateRec} {l : List UpdateRec} :
    x ∈ insertByCreatedAtDesc u l ↔ x = u ∨ x ∈ l := by
  induction l with
  | nil => simp [insertByCreatedAtDesc]
  | cons v vs ih =>
      by_cases h : v.createdAt ≤ u.createdAt
      · simp [insertByCreatedAtDesc, h]
      · simp only [insertByCreatedAtDesc, if_neg h, List.mem_cons, ih]
        tauto

theorem mem_sortByCreatedAtDesc {x : UpdateRec} {l : List UpdateRec} :
    x ∈ sortByCreatedAtDesc l ↔ x ∈ l := by
  induction l with
  | nil => simp [sortByCreatedAtDesc]
  | cons v vs ih =>
      simp only [sortByCreatedAtDesc, List.foldr_cons, mem_insertByCreatedAtDesc,
        List.mem_cons]
      rw [show (List.foldr insertByCreatedAtDesc [] vs) = sortByCreatedAtDesc vs from rfl]
      rw [ih]

/-- C7: membership in the result of `getUpdatesForInvestor` is governed
solely by whether the investor has at least one stored transaction (any
status) referencing the update's startup — the update's visibility tag is
never consulted, so `major-investors` updates are returned exactly like
`all-investors` ones, and updates of startups the investor never transacted
with are excluded. -/
theorem c7_updates_ignore_visibility (st : MemStorage) (i : Nat) (u : UpdateRec) :
    u ∈ st.getUpdatesForInvestor i ↔
      (u ∈ mapValues st.updates ∧
       ∃ t ∈ mapValues st.transactions, t.investorId = i ∧ t.startupId = u.startupId) := by
  unfold MemStorage.getUpdatesForInvestor
  rw [mem_sortByCreatedAtDesc]
  simp only [List.mem_filter, List.contains_iff_exists_mem_beq, List.mem_map,
    List.mem_filter, decide_eq_true_eq, beq_iff_eq]
  constructor
  · rintro ⟨hu, sid, ⟨t, ⟨ht, hti⟩, rfl⟩, hsid⟩
    exact ⟨hu, t, ht, hti, hsid.symm⟩
  · rintro ⟨hu, t, ht, hti, hts⟩
    exact ⟨hu, t.startupId, ⟨t, ⟨ht, hti⟩, rfl⟩, hts.symm⟩

theorem transactions_updateStartupFunds (st : MemStorage) (j : Nat) (a : Rat) :
    (st.updateStartupFunds j a).2.transactions = st.transactions := by
  unfold MemStorage.updateStartupFunds
  cases hm : mapGet st.startups j <;> rfl

theorem transactionIdCounter_updateStartupFunds (st : MemStorage) (j : Nat) (a : Rat) :
    (st.updateStartupFunds j a).2.transactionIdCounter = st.transactionIdCounter := by
  unfold MemStorage.updateStartupFunds
  cases hm : mapGet st.startups j <;> rfl

theorem createTransaction_fst (st : MemStorage) (ins : InsertTransaction) (now : Nat) :
    (st.createTransaction ins now).1 =
      { id := st.transactionIdCounter, investorId := ins.investorId
        startupId := ins.startupId, amount := ins.amount, method := ins.method
        status := ins.status, transactionReference := orNull ins.transactionReference
        createdAt := now } := rfl

theorem transactions_createTransaction (st : MemStorage) (ins : InsertTransaction)
    (now : Nat) :
    (st.createTransaction ins now).2.transactions =
      mapSet st.transactions st.transactionIdCounter (st.createTransaction ins now).1 := by
  unfold MemStorage.createTransaction
  rw [transactions_updateStartupFunds]

/-- C10: for any authenticated session user, every transaction row present
after `POST /api/transactions` either pre-existed or carries
`investorId = req.user.id`; moreover the handler's outcome is entirely
insensitive to whatever `investorId` the request body supplied, because the
body is spread and then overwritten with the session id before validation. -/
theorem c10_investorId_overridden (st : MemStorage) (u : User) (b : TxBody) (now : Nat) :
    (∀ t, t ∈ mapValues (postTransactionsRoute st (some u) b now).2.transactions →
        t ∈ mapValues st.transactions ∨ t.investorId = u.id) ∧
    (∀ x, postTransactionsRoute st (some u) ({ b with investorId := x }) now =
        postTransactionsRoute st (some u) b now) := by
  constructor
  · intro t ht
    unfold postTransactionsRoute at ht
    dsimp only at ht
    split at ht
    · exact Or.inl ht
    · split at ht
      · split at ht
        · exact Or.inl ht
        · rw [transactions_createTransaction] at ht
          rcases mem_values_mapSet ht with h' | h'
          · exact Or.inl h'
          · subst h'
            exact Or.inr rfl
      · exact Or.inl ht
  · intro x
    obtain ⟨bi, bs, ba, bm, bst, br⟩ := b
    rfl

/-- Witness for C10: user 2 posts `bodyTxW` (which smuggles
`investorId = 999`) against `stScenario`; the persisted row `txW` carries
`investorId = 2`, and replacing the body's `investorId` field changes
nothing. -/
theorem c10_investorId_overridden_witness :
    (txW ∈ mapValues stScenario.transactions ∨ txW.investorId = uInvestor.id) ∧
    postTransactionsRoute stScenario (some uInvestor)
        ({ bodyTxW with investorId := some 5 }) 3 =
      postTransactionsRoute stScenario (some uInvestor) bodyTxW 3 :=
  ⟨(c10_investorId_overridden stScenario uInvestor bodyTxW 3).1 txW
      (List.Mem.head _),
   (c10_investorId_overridden stScenario uInvestor bodyTxW 3).2 (some 5)⟩

theorem createTransaction_snd (st : MemStorage) (ins : InsertTransaction) (now : Nat) :
    (st.createTransaction ins now).2 =
      (({ st with
            transactions := mapSet st.transactions st.transactionIdCounter
              ((st.createTransaction ins now).1)
            transactionIdCounter := st.transactionIdCounter + 1 }).updateStartupFunds
          ins.startupId ins.amount).2 := rfl

theorem fundsOf_updateStartupFunds (st : MemStorage) (j : Nat) (a : Rat) (i : Nat) :
    fundsOf (st.updateStartupFunds j a).2 i =
      if j = i then (fundsOf st i).map (fun f => f + a) else fundsOf st i := by
  unfold MemStorage.updateStartupFunds
  cases hm : mapGet st.startups j with
  | none =>
      by_cases hj : j = i
      · subst hj
        simp [fundsOf, hm]
      · simp [hj]
  | some s =>
      by_cases hj : j = i
      · subst hj
        simp [fundsOf, hm, mapGet_mapSet_self]
      · simp [fundsOf, hj, mapGet_mapSet_ne _ _ _ _ (fun h => hj h.symm)]

theorem values_transactions_createTransaction (st : MemStorage)
    (ins : InsertTransaction) (now : Nat) (hk : txKeysBelow st) :
    mapValues (st.createTransaction ins now).2.transactions =
      mapValues st.transactions ++ [(st.createTransaction ins now).1] := by
  rw [transactions_createTransaction]
  rw [mapSet_eq_append _ _ _ (fun p hp => Nat.ne_of_lt (hk p hp))]
  simp [mapValues]

theorem txSumFor_createTransaction (st : MemStorage) (ins : InsertTransaction)
    (now : Nat) (i : Nat) (hk : txKeysBelow st) :
    txSumFor (st.createTransaction ins now).2 i =
      txSumFor st i + (if ins.startupId = i then ins.amount else 0) := by
  unfold txSumFor
  rw [values_transactions_createTransaction st ins now hk]
  rw [List.filter_append, List.map_append, List.sum_append]
  congr 1
  rw [createTransaction_fst]
  by_cases hsi : ins.startupId = i
  · simp [hsi]
  · simp [hsi]

theorem txKeysBelow_createTransaction (st : MemStorage) (ins : InsertTransaction)
    (now : Nat) (hk : txKeysBelow st) :
    txKeysBelow (st.createTransaction ins now).2 := by
  intro p hp
  rw [transactions_createTransaction] at hp
  have hc : (st.createTransaction ins now).2.transactionIdCounter =
      st.transactionIdCounter + 1 := by
    rw [createTransaction_snd, transactionIdCounter_updateStartupFunds]
  rw [hc]
  rcases mem_mapSet hp with h' | h'
  · rw [h']
    exact Nat.lt_succ_self _
  · exact Nat.lt_succ_of_lt (hk p h')

theorem fundsOf_createTransaction_inv (st : MemStorage) (ins : InsertTransaction)
    (now : Nat) (i : Nat) (hk : txKeysBelow st)
    (hinv : fundsOf st i = some (txSumFor st i)) :
    fundsOf (st.createTransaction ins now).2 i =
      some (txSumFor (st.createTransaction ins now).2 i) := by
  rw [txSumFor_createTransaction st ins now i hk]
  rw [createTransaction_snd, fundsOf_updateStartupFunds]
  have hfl : fundsOf ({ st with
      transactions := mapSet st.transactions st.transactionIdCounter
        ((st.createTransaction ins now).1)
      transactionIdCounter := st.transactionIdCounter + 1 }) i = fundsOf st i := rfl
  rw [hfl, hinv]
  by_cases hsi : ins.startupId = i
  · simp [hsi]
  · simp [hsi]

/-- C2, amended: starting from a state whose startup `i` holds
`fundsRaised = 0` and is referenced by no stored transaction, after any
sequence of `createTransaction` calls the startup's `fundsRaised` equals
the sum of `amount` over ALL stored transactions referencing it — pending
and failed rows included, not only the `completed` ones, because the funds
update runs unconditionally at creation. -/
theorem c2_funds_equals_total_sum (st : MemStorage) (i : Nat)
    (reqs : List (InsertTransaction × Nat))
    (h0 : fundsOf st i = some 0) (hs : txSumFor st i = 0) (hk : txKeysBelow st) :
    fundsOf (runCreates st reqs) i = some (txSumFor (runCreates st reqs) i) := by
  have hinv : fundsOf st i = some (txSumFor st i) := by rw [hs]; exact h0
  clear h0 hs
  induction reqs generalizing st with
  | nil => exact hinv
  | cons r rs ih =>
      have hstep : runCreates st (r :: rs) =
          runCreates (st.createTransaction r.1 r.2).2 rs := rfl
      rw [hstep]
      exact ih _ (txKeysBelow_createTransaction st r.1 r.2 hk)
        (fundsOf_createTransaction_inv st r.1 r.2 i hk hinv)

/-- Witness for C2 (amended) on `stZero` with the Scenario-A completed
transfer of 500 followed by the Scenario-B pending transfer of 300: the
final `fundsRaised` equals the all-status sum. -/
theorem c2_funds_equals_total_sum_witness :
    fundsOf (runCreates stZero [(insCompletedA, 1), (insPendingB, 2)]) 1 =
      some (txSumFor (runCreates stZero [(insCompletedA, 1), (insPendingB, 2)]) 1) :=
  c2_funds_equals_total_sum stZero 1 [(insCompletedA, 1), (insPendingB, 2)]
    rfl rfl (by decide)

theorem getStartupByUserId_none_iff (st : MemStorage) (uid : Nat) :
    st.getStartupByUserId uid = none ↔ ∀ s ∈ mapValues st.startups, s.userId ≠ uid := by
  unfold MemStorage.getStartupByUserId
  rw [List.find?_eq_none]
  simp

theorem ownersMap_mapSet (m : List (Nat × Startup)) (k : Nat) (s v : Startup)
    (hget : mapGet m k = some s) (huid : v.userId = s.userId) :
    (mapValues (mapSet m k v)).map Startup.userId =
      (mapValues m).map Startup.userId := by
  induction m with
  | nil => simp [mapGet] at hget
  | cons q rest ih =>
      obtain ⟨a, b⟩ := q
      by_cases hk : a = k
      · subst hk
        have hb : b = s := by simpa [mapGet] using hget
        subst hb
        simp [mapSet, mapValues, huid]
      · have hrec := ih (by simpa [mapGet, hk] using hget)
        simp only [mapValues] at hrec
        simp only [mapSet, if_neg hk, mapValues, List.map_cons]
        rw [hrec]

theorem startupOwners_updateStartupFunds (st : MemStorage) (j : Nat) (a : Rat) :
    startupOwners (st.updateStartupFunds j a).2 = startupOwners st := by
  unfold MemStorage.updateStartupFunds startupOwners
  cases hm : mapGet st.startups j with
  | none => rfl
  | some s => exact ownersMap_mapSet st.startups j s _ hm rfl

theorem startupKeysBelow_updateStartupFunds (st : MemStorage) (j : Nat) (a : Rat)
    (h : startupKeysBelow st) : startupKeysBelow (st.updateStartupFunds j a).2 := by
  unfold MemStorage.updateStartupFunds
  cases hm : mapGet st.startups j with
  | none => exact h
  | some s =>
      intro p hp
      rcases mem_mapSet hp with h' | h'
      · rw [h']
        exact h (j, s) (mapGet_mem hm)
      · exact h _ h'

theorem startupKeysBelow_createStartup (st : MemStorage) (ins : InsertStartup)
    (now : Nat) (h : startupKeysBelow st) :
    startupKeysBelow (st.createStartup ins now).2 := by
  intro p hp
  rcases mem_mapSet hp with h' | h'
  · rw [h']
    exact Nat.lt_succ_self _
  · exact Nat.lt_succ_of_lt (h _ h')

theorem startupOwners_createStartup (st : MemStorage) (ins : InsertStartup)
    (now : Nat) (h : startupKeysBelow st) :
    startupOwners (st.createStartup ins now).2 = startupOwners st ++ [ins.userId] := by
  unfold startupOwners
  have happ : (st.createStartup ins now).2.startups =
      st.startups ++ [(st.startupIdCounter, (st.createStartup ins now).1)] :=
    mapSet_eq_append _ _ _ (fun p hp => Nat.ne_of_lt (h p hp))
  rw [happ]
  simp [mapValues]
  rfl

theorem startupOwners_createTransaction (st : MemStorage) (ins : InsertTransaction)
    (now : Nat) : startupOwners (st.createTransaction ins now).2 = startupOwners st := by
  rw [createTransaction_snd, startupOwners_updateStartupFunds]
  rfl

theorem routeInvariant_createTransaction (st : MemStorage) (ins : InsertTransaction)
    (now : Nat) (h : routeInvariant st) :
    routeInvariant (st.createTransaction ins now).2 := by
  constructor
  · exact startupKeysBelow_updateStartupFunds _ ins.startupId ins.amount h.1
  · intro uid
    rw [startupOwners_createTransaction]
    exact h.2 uid

theorem routeInvariant_postStartups (st : MemStorage) (u : Option User)
    (b : StartupBody) (now : Nat) (h : routeInvariant st) :
    routeInvariant (postStartupsRoute st u b now).2 := by
  unfold postStartupsRoute
  cases u with
  | none => exact h
  | some usr =>
      dsimp only
      split
      · exact h
      · split
        · exact h
        · rename_i hex
          split
          · refine ⟨startupKeysBelow_createStartup _ _ _ h.1, ?_⟩
            intro uid
            rw [startupOwners_createStartup _ _ _ h.1, List.count_append]
            by_cases hu : uid = usr.id
            · have h0 : (startupOwners st).count uid = 0 := by
                rw [List.count_eq_zero]
                intro hmem
                rcases List.mem_map.mp hmem with ⟨s, hs, hsu⟩
                exact ((getStartupByUserId_none_iff st usr.id).mp hex s hs) (hsu.trans hu)
              rw [hu] at h0 ⊢
              simp [h0]
            · have h1 : List.count uid [usr.id] = 0 := by
                simp [List.count_cons, hu]
              rw [h1]
              simpa using h.2 uid
          · exact h

theorem routeInvariant_postUpdates (st : MemStorage) (u : Option User)
    (b : UpdateBody) (now : Nat) (h : routeInvariant st) :
    routeInvariant (postUpdatesRoute st u b now).2 := by
  unfold postUpdatesRoute
  cases u with
  | none => exact h
  | some usr =>
      dsimp only
      split
      · exact h
      · split
        · exact h
        · split
          · exact h
          · exact h

theorem routeInvariant_postTransactions (st : MemStorage) (u : Option User)
    (b : TxBody) (now : Nat) (h : routeInvariant st) :
    routeInvariant (postTransactionsRoute st u b now).2 := by
  unfold postTransactionsRoute
  cases u with
  | none => exact h
  | some usr =>
      dsimp only
      split
      · exact h
      · split
        · split
          · exact h
          · exact routeInvariant_createTransaction _ _ now h
        · exact h

theorem reachable_routeInvariant (st : MemStorage) (hr : Reachable st) :
    routeInvariant st := by
  induction hr with
  | init =>
      constructor
      · intro p hp
        simp [MemStorage.empty] at hp
      · intro uid
        simp [startupOwners, mapValues, MemStorage.empty]
  | step _ hstep ih =>
      cases hstep with
      | startupCreate u b now st => exact routeInvariant_postStartups _ u b now ih
      | updateCreate u b now st => exact routeInvariant_postUpdates _ u b now ih
      | transactionCreate u b now st => exact routeInvariant_postTransactions _ u b now ih

/-- C8: a startup-role user who already owns a startup profile has any
further `POST /api/startups` answered with the 400 `alreadyExists` rejection
and the state returned untouched; consequently, in every state reachable by
the route-level step relation from a fresh server, each user owns at most
one startup. -/
theorem c8_unique_startup_per_user :
    (∀ (st : MemStorage) (u : User) (b : StartupBody) (now : Nat),
        u.role = Role.startup → (st.getStartupByUserId u.id).isSome = true →
        postStartupsRoute st (some u) b now = (StartupRouteResult.alreadyExists, st)) ∧
    (∀ st : MemStorage, Reachable st → atMostOneStartupPerUser st) := by
  constructor
  · intro st u b now hrole hsome
    unfold postStartupsRoute
    dsimp only
    rw [if_neg (fun hne => hne hrole)]
    obtain ⟨s, hs⟩ := Option.isSome_iff_exists.mp hsome
    rw [hs]
  · intro st hr
    exact (reachable_routeInvariant st hr).2

/-- Witness for C8: user 1 already owns startup 1 in `stScenario`, so a
second creation is rejected with the state unchanged; and the state reached
by one successful startup creation from a fresh server satisfies the
at-most-one invariant. -/
theorem c8_unique_startup_per_user_witness :
    postStartupsRoute stScenario (some uFounder) bodyStartupW 5 =
      (StartupRouteResult.alreadyExists, stScenario) ∧
    atMostOneStartupPerUser
      (postStartupsRoute MemStorage.empty (some uFounder) bodyStartupW 0).2 :=
  ⟨c8_unique_startup_per_user.1 stScenario uFounder bodyStartupW 5 rfl rfl,
   c8_unique_startup_per_user.2 _
     (Reachable.step Reachable.init
       (RouteStep.startupCreate (some uFounder) bodyStartupW 0 MemStorage.empty))⟩

end DeFund

